import Mathlib

/-!
# Verification of the FailedServer supervision job (arangodb agency)

Shallow embedding of `FailedServer.cpp` (run / start / create / status) and of
the agency transaction protocol it drives.  The job-side code is translated
from the source; the store-side transaction semantics, the `Job` base-class
helpers (`exists`, `finish`) and the path constants live outside the provided
sources and are modelled from the specification where a claim needs them.
-/

set_option maxRecDepth 4000

namespace AgencySup

/-- A store value.  The supervision code only ever writes string fields,
flat objects of string fields (job records, the blocked-server marker) and
the empty array (the `Target/FailedServers/<server>` entry). -/
inductive Value where
  | str (s : String)
  | emptyArr
  | obj (fields : List (String × String))
deriving DecidableEq, Repr

/-- One operation of an agency write transaction: set a key to a value, or
delete a key (the source expresses deletion as an object with op = delete). -/
inductive AgencyOp where
  | set (key : String) (v : Value)
  | del (key : String)
deriving DecidableEq, Repr

/-- A precondition of an agency write transaction, as used by the job code:
oldEmpty (key must currently be absent when the flag is true) and
old (key must currently hold exactly the given value). -/
inductive Precond where
  | oldEmpty (key : String) (flag : Bool)
  | old (key : String) (v : Value)
deriving DecidableEq, Repr

/-- An agency write transaction: an operation list plus a precondition list. -/
structure Transaction where
  ops : List AgencyOp
  preconds : List Precond
deriving DecidableEq, Repr

/-- The store, as a flat association list from full key paths to values.
`storeSet` keeps at most one entry per key. -/
abbrev Store := List (String × Value)

/-- Look a key up in the store (first matching entry). -/
def storeGet (st : Store) (k : String) : Option Value :=
  (st.find? (fun e => e.1 = k)).map (fun e => e.2)

/-- Overwrite a key in the store. -/
def storeSet (st : Store) (k : String) (v : Value) : Store :=
  (k, v) :: st.filter (fun e => e.1 ≠ k)

/-- Delete a key from the store. -/
def storeDel (st : Store) (k : String) : Store :=
  st.filter (fun e => e.1 ≠ k)

/-- Number of entries the store holds at a key. -/
def countKey (st : Store) (k : String) : Nat :=
  (st.filter (fun e => e.1 = k)).length

/-- Modelled from the spec: precondition evaluation by the store at commit
time (missing from src; §4.4: "must currently be empty/absent",
"must currently equal X"). -/
def checkPrecond (st : Store) : Precond → Bool
  | .oldEmpty k flag => (storeGet st k).isNone = flag
  | .old k v => storeGet st k = some v

/-- Apply one operation to the store. -/
def applyOp (st : Store) : AgencyOp → Store
  | .set k v => storeSet st k v
  | .del k => storeDel st k

/-- Modelled from the spec: the transaction client contract (missing from
src; §4.4: the store commits the whole operation set iff every precondition
holds against its state at commit time, atomically; otherwise nothing is
applied).  Returns acceptance plus the resulting store. -/
def transact (st : Store) (t : Transaction) : Bool × Store :=
  if t.preconds.all (checkPrecond st) then
    (true, t.ops.foldl applyOp st)
  else
    (false, st)

/-- Modelled from the spec: path constant for the ToDo namespace (defined in
the Job base class, which is missing from src). -/
def toDoPfx : String := "/Target/ToDo/"

/-- Modelled from the spec: path constant for the Pending namespace. -/
def pendingPfx : String := "/Target/Pending/"

/-- Modelled from the spec: path constant for the Failed namespace. -/
def failedPfx : String := "/Target/Failed/"

/-- Modelled from the spec: path constant for the Finished namespace. -/
def finishedPfx : String := "/Target/Finished/"

/-- Modelled from the spec: path constant for the blocked-server markers. -/
def blockedServersPfx : String := "/Target/BlockedServers/"

/-- Modelled from the spec: path constant for the failed-servers list
(no trailing slash: the source appends "/" + server itself). -/
def failedServersPfx : String := "/Target/FailedServers"

/-- Modelled from the spec: path constant for the health records. -/
def healthPfx : String := "/Supervision/Health/"

/-- Modelled from the spec: the health-status string a recovered server
reports (Supervision::HEALTH_STATUS_GOOD, defined outside src). -/
def HEALTH_GOOD : String := "GOOD"

/-- The transaction built by `FailedServer::start()` (source lines 317-377):
one write that inserts the Pending entry (timeStarted first, then a copy of
every field of the ToDo record), deletes the ToDo entry and inserts the
blocked-server marker carrying this job's id, guarded by the single
precondition that the blocked-server key is currently empty.  The FIXME at
source line 375 leaves the health-status precondition unwritten. -/
def startTx (agencyPfx jobId server : String)
    (todoFields : List (String × String)) (timeStarted : String) : Transaction :=
  { ops := [
      .set (agencyPfx ++ pendingPfx ++ jobId)
        (.obj (("timeStarted", timeStarted) :: todoFields)),
      .del (agencyPfx ++ toDoPfx ++ jobId),
      .set (agencyPfx ++ blockedServersPfx ++ server) (.obj [("jobId", jobId)])],
    preconds := [ .oldEmpty (agencyPfx ++ blockedServersPfx ++ server) true ] }

/-- The ToDo record fields written by `FailedServer::create()`
(source lines 491-499). -/
def createRecordFields (jobId creator server timeCreated : String) :
    List (String × String) :=
  [("type", "failedServer"), ("server", server), ("jobId", jobId),
   ("creator", creator), ("timeCreated", timeCreated)]

/-- The transaction built by `FailedServer::create()` (source lines 486-516):
two operations (the ToDo job record, and an empty array at
Target/FailedServers/<server>), guarded by the preconditions that the
server's health status still reads BAD and that the whole FailedServers
entry equals its snapshot value `fsSnap`. -/
def createTx (agencyPfx jobId creator server timeCreated : String)
    (fsSnap : Value) : Transaction :=
  { ops := [
      .set (agencyPfx ++ toDoPfx ++ jobId)
        (.obj (createRecordFields jobId creator server timeCreated)),
      .set (agencyPfx ++ failedServersPfx ++ "/" ++ server) .emptyArr],
    preconds := [
      .old (agencyPfx ++ healthPfx ++ server ++ "/Status") (.str "BAD"),
      .old (agencyPfx ++ failedServersPfx) fsSnap ] }

/-- The key of a precondition. -/
def Precond.key : Precond → String
  | .oldEmpty k _ => k
  | .old k _ => k

/-! ## Decomposition of a failed server into sub-jobs
(source lines 386-461, the body of `FailedServer::start()` after its
transaction is accepted). -/

/-- A sub-job spawned by the decomposition, identified by its constructor
arguments (`FailedLeader`, `FailedFollower`, `UnassumedLeadership` calls at
source lines 429-433, 446-449 and 455-457).  Their own `run()` effects are
outside the provided sources and outside every claim. -/
inductive SubJob where
  | failedLeader (jobId creator database collection shard fromServer toServer : String)
  | failedFollower (jobId creator database collection shard fromServer toServer : String)
  | unassumedLeadership (jobId creator database collection shard server : String)
deriving DecidableEq, Repr

/-- The shard a sub-job was spawned for. -/
def SubJob.shardOf : SubJob → String
  | .failedLeader _ _ _ _ sh _ _ => sh
  | .failedFollower _ _ _ _ sh _ _ => sh
  | .unassumedLeadership _ _ _ _ sh _ => sh

/-- Whether a sub-job is a FailedFollower. -/
def SubJob.isFollower : SubJob → Bool
  | .failedFollower _ _ _ _ _ _ _ => true
  | _ => false

/-- Whether a sub-job is a FailedLeader. -/
def SubJob.isLeader : SubJob → Bool
  | .failedLeader _ _ _ _ _ _ _ => true
  | _ => false

/-- A planned collection, as the decomposition reads it from the snapshot:
its replication factor, its distributeShardsLike marker (absent field is
signalled by an exception in the source and models as none), its shards
(name and current server list), and whether its Current entry has children
(source line 398). -/
structure Collection where
  replicationFactor : Nat
  distributeShardsLike : Option String
  shards : List (String × List String)
  currentNonEmpty : Bool
deriving DecidableEq, Repr

/-- The clone check of source lines 405-410: the distributeShardsLike value
exists and is non-empty (a missing field throws and is caught: not a clone). -/
def Collection.isClone (c : Collection) : Bool :=
  match c.distributeShardsLike with
  | some s => !s.isEmpty
  | none => false

/-- State of the scan over one shard's current server list
(source lines 416-441): the position counter, the found flag, the mutable
candidate pool, the sub-job sequence counter and the sub-jobs spawned. -/
structure ScanSt where
  pos : Nat
  found : Bool
  available : List String
  sub : Nat
  jobs : List SubJob
deriving DecidableEq, Repr

/-- One iteration of the scan (source lines 419-441) for entry `dbs`:
erase `dbs` from the candidate pool; if it is the failed server at position
0, spawn a FailedLeader naming the list's second entry and skip the position
increment (the `continue`); if it is the failed server at a non-zero
position, set found; otherwise just advance. -/
def scanStep (server jobId database collection shard second : String)
    (s : ScanSt) (dbs : String) : ScanSt :=
  let avail := s.available.filter (fun x => x ≠ dbs)
  if dbs = server then
    if s.pos = 0 then
      { s with available := avail,
               jobs := s.jobs ++ [SubJob.failedLeader
                 (jobId ++ "-" ++ toString s.sub) jobId database collection
                 shard server second],
               sub := s.sub + 1 }
    else
      { s with available := avail, found := true, pos := s.pos + 1 }
  else
    { s with available := avail, pos := s.pos + 1 }

/-- Process one shard (source lines 414-451): scan its server list, then, if
the failed server was found at a non-zero position, the pool is non-empty
and the collection is not a clone, spawn one FailedFollower whose target is
drawn from the pool at the next random index (rand() consumed only here).
Returns the spawned jobs, the pool, the sequence counter and the remaining
random stream. -/
def processShard (server jobId database collection : String) (isClone : Bool)
    (available : List String) (sub : Nat) (rands : List Nat)
    (shard : String) (servers : List String) :
    List SubJob × List String × Nat × List Nat :=
  let s := servers.foldl
    (scanStep server jobId database collection shard (servers.getD 1 ""))
    ⟨0, false, available, sub, []⟩
  if s.found ∧ s.available ≠ [] ∧ ¬ isClone then
    let r := rands.headD 0
    let toServer := s.available.getD (r % s.available.length) ""
    (s.jobs ++ [SubJob.failedFollower (jobId ++ "-" ++ toString s.sub) jobId
       database collection shard server toServer],
     s.available, s.sub + 1, rands.tail)
  else
    (s.jobs, s.available, s.sub, rands)

/-- One step of the fold over a collection's shards: run `processShard` on
the threaded pool, counter and random stream and append the spawned jobs. -/
def shardStep (server jobId database collection : String) (isClone : Bool)
    (acc : List SubJob × List String × Nat × List Nat)
    (sh : String × List String) :
    List SubJob × List String × Nat × List Nat :=
  let r := processShard server jobId database collection isClone
    acc.2.1 acc.2.2.1 acc.2.2.2 sh.1 sh.2
  (acc.1 ++ r.1, r.2.1, r.2.2.1, r.2.2.2)

/-- Fold of `processShard` over all shards of a collection, threading the
candidate pool, the sequence counter and the random stream
(source lines 414-451). -/
def processShards (server jobId database collection : String) (isClone : Bool)
    (shards : List (String × List String))
    (available : List String) (sub : Nat) (rands : List Nat) :
    List SubJob × List String × Nat × List Nat :=
  shards.foldl (shardStep server jobId database collection isClone)
    ([], available, sub, rands)

/-- One step of the UnassumedLeadership spawning fold. -/
def unassumedStep (server jobId database collection : String)
    (acc : List SubJob × Nat) (sh : String × List String) : List SubJob × Nat :=
  (acc.1 ++ [SubJob.unassumedLeadership (jobId ++ "-" ++ toString acc.2)
     jobId database collection sh.1 server], acc.2 + 1)

/-- Spawn one UnassumedLeadership job per shard (source lines 453-459,
the branch for a collection whose Current entry has no children). -/
def unassumedJobs (server jobId database collection : String)
    (shards : List (String × List String)) (sub : Nat) :
    List SubJob × Nat :=
  shards.foldl (unassumedStep server jobId database collection) ([], sub)

/-- Process one collection (source lines 395-460): if its Current entry has
children and its replication factor exceeds 1, run the shard scan with a
fresh candidate pool `available0` (availableServers is re-read from the
snapshot per collection, source line 412); if its Current entry is empty,
spawn UnassumedLeadership jobs; otherwise nothing. -/
def processCollection (server jobId : String) (available0 : List String)
    (database collection : String) (c : Collection)
    (sub : Nat) (rands : List Nat) : List SubJob × Nat × List Nat :=
  if c.currentNonEmpty then
    if 1 < c.replicationFactor then
      let r := processShards server jobId database collection c.isClone
        c.shards available0 sub rands
      (r.1, r.2.2.1, r.2.2.2)
    else
      ([], sub, rands)
  else
    let r := unassumedJobs server jobId database collection c.shards sub
    (r.1, r.2, rands)

/-- One database of the planned topology: its name and its collections. -/
abbrev Database := List (String × Collection)

/-- The planned topology: databases with their collections. -/
abbrev Plan := List (String × Database)

/-- The whole decomposition (source lines 386-461): walk every collection of
every planned database, threading the sequence counter and the random
stream.  `available0` stands for availableServers(snapshot), which is
re-evaluated per collection but constant for a fixed snapshot. -/
def decompose (server jobId : String) (plan : Plan)
    (available0 : List String) (rands : List Nat) :
    List SubJob × Nat × List Nat :=
  plan.foldl
    (fun acc db =>
      db.2.foldl
        (fun acc2 coll =>
          let r := processCollection server jobId available0 db.1 coll.1
            coll.2 acc2.2.1 acc2.2.2
          (acc2.1 ++ r.1, r.2.1, r.2.2))
        acc)
    ([], 0, rands)

/-! ## The job state machine: status / start / create / run -/

/-- Job lifecycle status, as returned by `status()` (the namespace the job
record occupies, or NOTFOUND). -/
inductive JOB_STATUS where
  | TODO
  | PENDING
  | FAILED
  | FINISHED
  | NOTFOUND
deriving DecidableEq, Repr

/-- Namespace path of a status (the `pos` table of the Job base class). -/
def posPfx : JOB_STATUS → String
  | .TODO => toDoPfx
  | .PENDING => pendingPfx
  | .FAILED => failedPfx
  | .FINISHED => finishedPfx
  | .NOTFOUND => ""

/-- Everything one invocation of the FailedServer job reads: the job's own
identifiers and the parts of the snapshot its code consults.  An Option is
none when the corresponding snapshot key is missing (the source throws on
such an access). -/
structure Env where
  jobId : String
  creator : String
  agencyPfx : String
  server : String
  inTodo : Bool
  inPending : Bool
  inFailed : Bool
  inFinished : Bool
  recordServer : Option String
  health : Option String
  todos : List String
  pends : List String
  todoFields : Option (List (String × String))
  fsSnap : Option Value
  plan : Plan
  available : List String
  rands : List Nat
  timeNow : String
deriving DecidableEq, Repr

/-- Modelled from the spec: `Job::exists()` (missing from src; §4.1: locates
the record by probing ToDo then Pending then Failed then Finished). -/
def existsLoc (e : Env) : JOB_STATUS :=
  if e.inTodo then .TODO
  else if e.inPending then .PENDING
  else if e.inFailed then .FAILED
  else if e.inFinished then .FINISHED
  else .NOTFOUND

/-- Modelled from the spec: the transaction built by `Job::finish` (missing
from src; §4.1: atomic delete-from-current-namespace, release of the
server-block, insert into Finished or Failed with the result message). -/
def finishTx (agencyPfx jobId : String) (fromLoc : JOB_STATUS)
    (server : String) (success : Bool) (message : String) : Transaction :=
  { ops := [
      .del (agencyPfx ++ posPfx fromLoc ++ jobId),
      .del (agencyPfx ++ blockedServersPfx ++ server),
      .set (agencyPfx ++ (if success then finishedPfx else failedPfx) ++ jobId)
        (.obj [("jobId", jobId), ("result", message)])],
    preconds := [] }

/-- The sub-job name test of source lines 561 and 580: the name starts with
jobId followed by a dash (the source compares the first jobId-size + 1
characters of the name with jobId + dash). -/
def isSubJobName (jobId name : String) : Bool :=
  (jobId ++ "-").data.isPrefixOf name.data

/-- The deleteTodos transaction of source lines 554-593: one delete
operation per ToDo child whose name is prefixed by jobId-, no precondition. -/
def deleteTodosTx (e : Env) : Transaction :=
  { ops := (e.todos.filter (isSubJobName e.jobId)).map
      (fun n => AgencyOp.del (e.agencyPfx ++ toDoPfx ++ n)),
    preconds := [] }

/-- The function `FailedServer::status()` (source lines 531-613).  Returns the computed
status (or the message of an exception that escapes to the caller), the
possibly re-read server id, the store after any reconciliation transactions,
and the transactions issued.  A record whose server field is unreadable is
caught inside status() and force-finished as Failed; a missing health record
for a Pending job throws out of status(). -/
def statusFS (e : Env) (st : Store) :
    Except String JOB_STATUS × String × Store × List Transaction :=
  let loc := existsLoc e
  if loc = .NOTFOUND then (.ok .NOTFOUND, e.server, st, [])
  else
    match e.recordServer with
    | none =>
      let ftx := finishTx e.agencyPfx e.jobId loc e.server false
        ("Failed to find job " ++ e.jobId ++ " in agency")
      let r := transact st ftx
      (.ok .FAILED, e.server, r.2, [ftx])
    | some srv =>
      if loc = .PENDING then
        match e.health with
        | none => (.error ("missing health record for " ++ srv), srv, st, [])
        | some h =>
          let healthy : Bool := h == HEALTH_GOOD
          let subTodos := e.todos.filter (isSubJobName e.jobId)
          let hasOpen : Bool :=
            (!healthy && !subTodos.isEmpty) || e.pends.any (isSubJobName e.jobId)
          if healthy && !subTodos.isEmpty then
            let dtx := deleteTodosTx e
            let r := transact st dtx
            if r.1 then
              if !hasOpen then
                let ftx := finishTx e.agencyPfx e.jobId .PENDING srv true ""
                let fr := transact r.2 ftx
                if fr.1 then (.ok .FINISHED, srv, fr.2, [dtx, ftx])
                else (.ok .PENDING, srv, fr.2, [dtx, ftx])
              else (.ok .PENDING, srv, r.2, [dtx])
            else (.ok .PENDING, srv, r.2, [dtx])
          else
            if !hasOpen then
              let ftx := finishTx e.agencyPfx e.jobId .PENDING srv true ""
              let fr := transact st ftx
              if fr.1 then (.ok .FINISHED, srv, fr.2, [ftx])
              else (.ok .PENDING, srv, fr.2, [ftx])
            else (.ok .PENDING, srv, st, [])
      else (.ok loc, srv, st, [])

/-- The function `FailedServer::start()` (source lines 313-470).  `fields?` is the ToDo
record as read from the snapshot or handed over from create()'s envelope;
none models the snapshot fetch throwing (caught at source line 325, start
returns false).  On acceptance the decomposition spawns sub-jobs; on
precondition failure start returns false without any further action. -/
def startFS (e : Env) (server : String)
    (fields? : Option (List (String × String))) (st : Store) :
    Bool × Store × List Transaction × List SubJob :=
  match fields? with
  | none => (false, st, [], [])
  | some fields =>
    let tx := startTx e.agencyPfx e.jobId server fields e.timeNow
    let r := transact st tx
    if r.1 then
      let d := decompose server e.jobId e.plan e.available e.rands
      (true, r.2, [tx], d.1)
    else
      (false, r.2, [tx], [])

/-- The function `FailedServer::create()` in its self-creating form (source lines
472-529, envelope absent).  Reading the FailedServers snapshot entry throws
when the key is missing (source line 515); otherwise the transaction is
committed and create returns whether it was accepted. -/
def createFS (e : Env) (st : Store) :
    Except String Bool × Store × List Transaction :=
  match e.fsSnap with
  | none => (.error "missing FailedServers entry in snapshot", st, [])
  | some fsv =>
    let tx := createTx e.agencyPfx e.jobId e.creator e.server e.timeNow fsv
    let r := transact st tx
    if r.1 then (.ok true, r.2, [tx]) else (.ok false, r.2, [tx])

/-- The try-block of `FailedServer::run()` (source lines 298-306): read
status(); on TODO call start(); on NOTFOUND call create() and, if it
succeeded, start() on the freshly built record. -/
def runBody (e : Env) (st : Store) :
    Except String Unit × Store × List Transaction :=
  match statusFS e st with
  | (.error m, _, st1, txs) => (.error m, st1, txs)
  | (.ok js, srv, st1, txs) =>
    if js = .TODO then
      let r := startFS e srv e.todoFields st1
      (.ok (), r.2.1, txs ++ r.2.2.1)
    else if js = .NOTFOUND then
      match createFS e st1 with
      | (.error m, st2, txs2) => (.error m, st2, txs ++ txs2)
      | (.ok true, st2, txs2) =>
        let r := startFS e e.server
          (some (createRecordFields e.jobId e.creator e.server e.timeNow)) st2
        (.ok (), r.2.1, txs ++ txs2 ++ r.2.2.1)
      | (.ok false, st2, txs2) => (.ok (), st2, txs ++ txs2)
    else (.ok (), st1, txs)

/-- The function `FailedServer::run()` (source lines 297-311): execute the body; any
exception is caught, logged and converted into
finish(DBServers/server, success = false, message).  The return type
carries no exception: run never propagates one to the driver. -/
def runFS (e : Env) (st : Store) : Store × List Transaction :=
  match runBody e st with
  | (.ok _, st1, txs) => (st1, txs)
  | (.error m, st1, txs) =>
    let ftx := finishTx e.agencyPfx e.jobId (existsLoc e) e.server false m
    let r := transact st1 ftx
    (r.2, txs ++ [ftx])

/-! ## Store and string helper lemmas -/

lemma storeGet_storeSet_self (st : Store) (k : String) (v : Value) :
    storeGet (storeSet st k v) k = some v := by
  simp [storeGet, storeSet]

lemma countKey_storeSet_self (st : Store) (k : String) (v : Value) :
    countKey (storeSet st k v) k = 1 := by
  simp [countKey, storeSet, List.filter_filter]

lemma find?_pred_ne (st : Store) (k k' : String) (h : k ≠ k') :
    List.find? (fun a => !decide (a.1 = k') && decide (a.1 = k)) st =
      List.find? (fun e => decide (e.1 = k)) st := by
  congr 1
  funext a
  by_cases ha : a.1 = k
  · simp [ha, h]
  · simp [ha]

lemma storeGet_storeSet (st : Store) (k' k : String) (v : Value) :
    storeGet (storeSet st k' v) k = if k = k' then some v else storeGet st k := by
  by_cases h : k = k'
  · subst h; simp [storeGet_storeSet_self]
  · simp [storeGet, storeSet, h, Ne.symm h]
    rw [find?_pred_ne st k k' h]

lemma storeGet_storeDel (st : Store) (k' k : String) :
    storeGet (storeDel st k') k = if k = k' then none else storeGet st k := by
  by_cases h : k = k'
  · subst h
    simp only [storeGet, storeDel, if_pos rfl]
    rw [List.find?_eq_none.mpr]
    · rfl
    · intro e he
      simp only [List.mem_filter] at he
      simpa using he.2
  · simp [storeGet, storeDel, h]
    rw [find?_pred_ne st k k' h]

/-- Two string concatenations around a common head differ whenever the two
middle literals differ at some character position inside both. -/
lemma append_ne_of_mid (p x y a b : String) (i : Nat)
    (hx : i < x.data.length) (hy : i < y.data.length)
    (hne : x.data[i]? ≠ y.data[i]?) :
    p ++ x ++ a ≠ p ++ y ++ b := by
  intro h
  have h1 : (p ++ x ++ a).data = (p ++ y ++ b).data := by rw [h]
  rw [String.data_append, String.data_append, String.data_append,
    String.data_append, List.append_assoc, List.append_assoc] at h1
  have h2 := List.append_cancel_left h1
  have h3 := congrArg (fun l => l[i]?) h2
  simp only [List.getElem?_append_left hx, List.getElem?_append_left hy] at h3
  exact hne h3

/-! ## C6: the atomic ToDo-to-Pending move of start() -/

/-- C6: `FailedServer::start()` builds a single transaction that inserts the
Pending entry (timeStarted plus a copy of the ToDo record's fields), deletes
the ToDo entry and inserts the server-block record for the target server, all
guarded by the one precondition that no block currently exists for that
server; when the store rejects that transaction, start() returns false, the
store is unchanged, no other transaction is issued and no sub-job is spawned
(and nothing moves the job to Failed).  start() is a total function of its
inputs, so it cannot throw. -/
theorem start_atomic_move_and_reject
    (e : Env) (server : String) (fields : List (String × String)) (st : Store)
    (hrej : checkPrecond st
      (.oldEmpty (e.agencyPfx ++ blockedServersPfx ++ server) true) = false) :
    (startTx e.agencyPfx e.jobId server fields e.timeNow).ops =
      [.set (e.agencyPfx ++ pendingPfx ++ e.jobId)
         (.obj (("timeStarted", e.timeNow) :: fields)),
       .del (e.agencyPfx ++ toDoPfx ++ e.jobId),
       .set (e.agencyPfx ++ blockedServersPfx ++ server)
         (.obj [("jobId", e.jobId)])] ∧
    (startTx e.agencyPfx e.jobId server fields e.timeNow).preconds =
      [.oldEmpty (e.agencyPfx ++ blockedServersPfx ++ server) true] ∧
    startFS e server (some fields) st =
      (false, st, [startTx e.agencyPfx e.jobId server fields e.timeNow], []) := by
  refine ⟨rfl, rfl, ?_⟩
  simp [startFS, transact, startTx, hrej]

/-- Witness for C6 at a concrete store already holding a block. -/
theorem start_atomic_move_and_reject_witness :
    startFS
      { jobId := "1", creator := "0", agencyPfx := "/arango", server := "S",
        inTodo := true, inPending := false, inFailed := false,
        inFinished := false, recordServer := some "S", health := some "BAD",
        todos := [], pends := [], todoFields := some [("server", "S")],
        fsSnap := some .emptyArr, plan := [], available := [], rands := [],
        timeNow := "T" }
      "S" (some [("server", "S")])
      [("/arango" ++ blockedServersPfx ++ "S", .obj [("jobId", "0")])] =
      (false,
       [("/arango" ++ blockedServersPfx ++ "S", .obj [("jobId", "0")])],
       [startTx "/arango" "1" "S" [("server", "S")] "T"], []) :=
  (start_atomic_move_and_reject _ "S" [("server", "S")] _ (by decide)).2.2

/-! ## C3: health precondition on state-changing writes -/

/-- C3 (code-bug evidence): at a concrete job, the transaction of
`FailedServer::create()` carries the health precondition (old = BAD on the
target server's health status), but the transaction of
`FailedServer::start()` carries exactly one precondition, the blocked-server
oldEmpty check, whose key differs from the health-status key: the
ToDo-to-Pending move commits without revalidating the server's health.  The
FIXME comments at source lines 335-336 and 375 record the missing start()
precondition, so the claim states the intent and the code is the slip. -/
theorem start_lacks_health_precondition :
    (startTx "/arango" "1" "DBServer001" [("type", "failedServer")] "T").preconds.map
        Precond.key = ["/arango" ++ blockedServersPfx ++ "DBServer001"] ∧
    (createTx "/arango" "1" "supervision" "DBServer001" "T" .emptyArr).preconds.map
        Precond.key =
      ["/arango" ++ healthPfx ++ "DBServer001" ++ "/Status",
       "/arango" ++ failedServersPfx] ∧
    "/arango" ++ blockedServersPfx ++ "DBServer001" ≠
      "/arango" ++ healthPfx ++ "DBServer001" ++ "/Status" :=
  ⟨rfl, rfl, by decide⟩

/-! ## C10: the two keys written by create() -/

/-- C10: every `FailedServer::create()` transaction writes exactly two keys
in one atomic operation set: the ToDo job record at Target/ToDo/(jobId) and
an empty array at Target/FailedServers/(server); the two keys are always
distinct, no other key is written, and the FailedServers entry is part of
the very same transaction as the ToDo record. -/
theorem create_writes_exactly_two_keys
    (a jid cr srv t : String) (fsv : Value) :
    (createTx a jid cr srv t fsv).ops =
      [.set (a ++ toDoPfx ++ jid) (.obj (createRecordFields jid cr srv t)),
       .set (a ++ failedServersPfx ++ "/" ++ srv) .emptyArr] ∧
    a ++ toDoPfx ++ jid ≠ a ++ failedServersPfx ++ "/" ++ srv := by
  refine ⟨rfl, ?_⟩
  have h := append_ne_of_mid a toDoPfx failedServersPfx jid ("/" ++ srv) 8
    (by decide) (by decide) (by decide)
  intro hc
  apply h
  rw [← String.append_assoc]
  exact hc

/-! ## C1: mutual exclusion per server -/

/-- C1: if the store holds no server-block record for server s, then of two
independently constructed FailedServer jobs targeting s whose start()
transactions are committed one after the other (in either order, since the
two jobs are arbitrary), the first start() succeeds and installs exactly one
block record for s holding its own job id, and the second start()'s
block-absence (oldEmpty) precondition fails, so it returns false and leaves
the store unchanged. -/
theorem start_mutual_exclusion
    (e1 e2 : Env) (s : String) (f1 f2 : List (String × String)) (st : Store)
    (ha : e2.agencyPfx = e1.agencyPfx)
    (hempty : storeGet st (e1.agencyPfx ++ blockedServersPfx ++ s) = none) :
    (startFS e1 s (some f1) st).1 = true ∧
    storeGet (startFS e1 s (some f1) st).2.1
      (e1.agencyPfx ++ blockedServersPfx ++ s) =
      some (.obj [("jobId", e1.jobId)]) ∧
    countKey (startFS e1 s (some f1) st).2.1
      (e1.agencyPfx ++ blockedServersPfx ++ s) = 1 ∧
    startFS e2 s (some f2) ((startFS e1 s (some f1) st).2.1) =
      (false, (startFS e1 s (some f1) st).2.1,
       [startTx e2.agencyPfx e2.jobId s f2 e2.timeNow], []) := by
  have hacc : startFS e1 s (some f1) st =
      (true,
       storeSet (storeDel (storeSet st (e1.agencyPfx ++ pendingPfx ++ e1.jobId)
           (.obj (("timeStarted", e1.timeNow) :: f1)))
         (e1.agencyPfx ++ toDoPfx ++ e1.jobId))
         (e1.agencyPfx ++ blockedServersPfx ++ s) (.obj [("jobId", e1.jobId)]),
       [startTx e1.agencyPfx e1.jobId s f1 e1.timeNow],
       (decompose s e1.jobId e1.plan e1.available e1.rands).1) := by
    simp [startFS, transact, startTx, checkPrecond, hempty, applyOp]
  rw [hacc]
  refine ⟨rfl, storeGet_storeSet_self .., countKey_storeSet_self .., ?_⟩
  have hrej : checkPrecond
      (storeSet (storeDel (storeSet st (e1.agencyPfx ++ pendingPfx ++ e1.jobId)
          (.obj (("timeStarted", e1.timeNow) :: f1)))
        (e1.agencyPfx ++ toDoPfx ++ e1.jobId))
        (e1.agencyPfx ++ blockedServersPfx ++ s) (.obj [("jobId", e1.jobId)]))
      (.oldEmpty (e2.agencyPfx ++ blockedServersPfx ++ s) true) = false := by
    rw [ha]
    simp [checkPrecond, storeGet_storeSet_self]
  simp [startFS, transact, startTx, hrej]

/-- Witness for C1: a concrete store with no block for server S. -/
theorem start_mutual_exclusion_witness :
    storeGet [] ("/arango" ++ blockedServersPfx ++ "S") = none ∧
    ((startFS
        { jobId := "1", creator := "0", agencyPfx := "/arango", server := "S",
          inTodo := true, inPending := false, inFailed := false,
          inFinished := false, recordServer := some "S", health := some "BAD",
          todos := [], pends := [], todoFields := some [("server", "S")],
          fsSnap := some .emptyArr, plan := [], available := [], rands := [],
          timeNow := "T" } "S" (some [("server", "S")]) []).1 = true ∧
     (startFS
        { jobId := "2", creator := "0", agencyPfx := "/arango", server := "S",
          inTodo := true, inPending := false, inFailed := false,
          inFinished := false, recordServer := some "S", health := some "BAD",
          todos := [], pends := [], todoFields := some [("server", "S")],
          fsSnap := some .emptyArr, plan := [], available := [], rands := [],
          timeNow := "T" } "S" (some [("server", "S")])
        ((startFS
          { jobId := "1", creator := "0", agencyPfx := "/arango", server := "S",
            inTodo := true, inPending := false, inFailed := false,
            inFinished := false, recordServer := some "S", health := some "BAD",
            todos := [], pends := [], todoFields := some [("server", "S")],
            fsSnap := some .emptyArr, plan := [], available := [], rands := [],
            timeNow := "T" } "S" (some [("server", "S")]) []).2.1)).1 = false) := by
  refine ⟨by decide, ?_, ?_⟩
  · exact (start_mutual_exclusion
      { jobId := "1", creator := "0", agencyPfx := "/arango", server := "S",
        inTodo := true, inPending := false, inFailed := false,
        inFinished := false, recordServer := some "S", health := some "BAD",
        todos := [], pends := [], todoFields := some [("server", "S")],
        fsSnap := some .emptyArr, plan := [], available := [], rands := [],
        timeNow := "T" }
      { jobId := "2", creator := "0", agencyPfx := "/arango", server := "S",
        inTodo := true, inPending := false, inFailed := false,
        inFinished := false, recordServer := some "S", health := some "BAD",
        todos := [], pends := [], todoFields := some [("server", "S")],
        fsSnap := some .emptyArr, plan := [], available := [], rands := [],
        timeNow := "T" } "S" [("server", "S")] [("server", "S")] []
      rfl (by decide)).1
  · have h := (start_mutual_exclusion
      { jobId := "1", creator := "0", agencyPfx := "/arango", server := "S",
        inTodo := true, inPending := false, inFailed := false,
        inFinished := false, recordServer := some "S", health := some "BAD",
        todos := [], pends := [], todoFields := some [("server", "S")],
        fsSnap := some .emptyArr, plan := [], available := [], rands := [],
        timeNow := "T" }
      { jobId := "2", creator := "0", agencyPfx := "/arango", server := "S",
        inTodo := true, inPending := false, inFailed := false,
        inFinished := false, recordServer := some "S", health := some "BAD",
        todos := [], pends := [], todoFields := some [("server", "S")],
        fsSnap := some .emptyArr, plan := [], available := [], rands := [],
        timeNow := "T" } "S" [("server", "S")] [("server", "S")] []
      rfl (by decide)).2.2.2
    rw [h]

/-! ## Lemmas about the shard scan and the decomposition folds -/

lemma scanStep_available (server jobId database collection shard second : String)
    (s : ScanSt) (dbs : String) :
    (scanStep server jobId database collection shard second s dbs).available =
      s.available.filter (fun x => x ≠ dbs) := by
  unfold scanStep
  dsimp only
  split
  · split <;> rfl
  · rfl

lemma scan_fold_available (server jobId database collection shard second : String) :
    ∀ (l : List String) (s : ScanSt),
      (l.foldl (scanStep server jobId database collection shard second) s).available =
        s.available.filter (fun x => !l.contains x) := by
  intro l
  induction l with
  | nil => intro s; simp
  | cons d t ih =>
    intro s
    rw [List.foldl_cons, ih, scanStep_available, List.filter_filter]
    apply List.filter_congr
    intro x _
    by_cases hx : x = d <;> simp [hx]

lemma scanStep_of_pos (server jobId database collection shard second : String)
    (s : ScanSt) (dbs : String) (hs : s.pos ≠ 0) :
    (scanStep server jobId database collection shard second s dbs).jobs = s.jobs ∧
    (scanStep server jobId database collection shard second s dbs).found =
      (s.found || (dbs == server)) ∧
    (scanStep server jobId database collection shard second s dbs).sub = s.sub ∧
    (scanStep server jobId database collection shard second s dbs).pos = s.pos + 1 := by
  unfold scanStep
  by_cases hd : dbs = server
  · simp [hd, hs]
  · simp [hd]

lemma scanStep_of_ne (server jobId database collection shard second : String)
    (s : ScanSt) (dbs : String) (hd : dbs ≠ server) :
    (scanStep server jobId database collection shard second s dbs).jobs = s.jobs ∧
    (scanStep server jobId database collection shard second s dbs).found = s.found ∧
    (scanStep server jobId database collection shard second s dbs).sub = s.sub := by
  unfold scanStep
  simp [hd]

lemma scan_fold_of_pos (server jobId database collection shard second : String) :
    ∀ (l : List String) (s : ScanSt), 0 < s.pos →
      (l.foldl (scanStep server jobId database collection shard second) s).jobs =
          s.jobs ∧
      (l.foldl (scanStep server jobId database collection shard second) s).found =
          (s.found || l.contains server) ∧
      (l.foldl (scanStep server jobId database collection shard second) s).sub =
          s.sub ∧
      0 < (l.foldl (scanStep server jobId database collection shard second) s).pos := by
  intro l
  induction l with
  | nil => intro s hs; simpa using hs
  | cons d t ih =>
    intro s hs
    rw [List.foldl_cons]
    have hstep := scanStep_of_pos server jobId database collection shard second s d
      (Nat.pos_iff_ne_zero.mp hs)
    have hpos' : 0 < (scanStep server jobId database collection shard second s d).pos := by
      rw [hstep.2.2.2]; exact Nat.succ_pos _
    have ih' := ih _ hpos'
    refine ⟨?_, ?_, ?_, ih'.2.2.2⟩
    · rw [ih'.1, hstep.1]
    · rw [ih'.2.1, hstep.2.1]
      by_cases hd : d = server
      · subst hd; simp
      · have h1 : (d == server) = false := beq_eq_false_iff_ne.mpr hd
        simp [List.contains_cons, h1, Ne.symm hd]
    · rw [ih'.2.2.1, hstep.2.2.1]

lemma scan_fold_of_ne (server jobId database collection shard second : String) :
    ∀ (l : List String) (s : ScanSt), (∀ x ∈ l, x ≠ server) →
      (l.foldl (scanStep server jobId database collection shard second) s).jobs =
          s.jobs ∧
      (l.foldl (scanStep server jobId database collection shard second) s).found =
          s.found ∧
      (l.foldl (scanStep server jobId database collection shard second) s).sub =
          s.sub := by
  intro l
  induction l with
  | nil => intro s _; exact ⟨rfl, rfl, rfl⟩
  | cons d t ih =>
    intro s hl
    rw [List.foldl_cons]
    have hd : d ≠ server := hl d (List.mem_cons_self d t)
    have hstep := scanStep_of_ne server jobId database collection shard second s d hd
    have ih' := ih (scanStep server jobId database collection shard second s d)
      (fun x hx => hl x (List.mem_cons_of_mem d hx))
    exact ⟨by rw [ih'.1, hstep.1], by rw [ih'.2.1, hstep.2.1],
      by rw [ih'.2.2, hstep.2.2]⟩

lemma getD_mod_mem (l : List String) (r : Nat) (h : l ≠ []) :
    l.getD (r % l.length) "" ∈ l := by
  have hlen : 0 < l.length := List.length_pos.mpr h
  have hlt : r % l.length < l.length := Nat.mod_lt _ hlen
  rw [List.getD_eq_getElem?_getD, List.getElem?_eq_getElem hlt]
  exact List.getElem_mem hlt

lemma scanStep_leader (server jobId database collection shard second : String)
    (s : ScanSt) (hpos : s.pos = 0) :
    (scanStep server jobId database collection shard second s server).jobs =
      s.jobs ++ [SubJob.failedLeader (jobId ++ "-" ++ toString s.sub) jobId
        database collection shard server second] ∧
    (scanStep server jobId database collection shard second s server).found =
      s.found ∧
    (scanStep server jobId database collection shard second s server).sub =
      s.sub + 1 ∧
    (scanStep server jobId database collection shard second s server).pos =
      s.pos := by
  unfold scanStep
  simp [hpos]

lemma scanStep_pos_of_ne (server jobId database collection shard second : String)
    (s : ScanSt) (dbs : String) (hd : dbs ≠ server) :
    (scanStep server jobId database collection shard second s dbs).pos =
      s.pos + 1 := by
  unfold scanStep
  simp [hd]

lemma processShard_available (server jobId database collection : String)
    (isClone : Bool) (available : List String) (sub : Nat) (rands : List Nat)
    (shard : String) (l : List String) :
    (processShard server jobId database collection isClone available sub rands
      shard l).2.1 = available.filter (fun x => !l.contains x) := by
  unfold processShard
  dsimp only
  split
  · exact scan_fold_available server jobId database collection shard
      (l.getD 1 "") l ⟨0, false, available, sub, []⟩
  · exact scan_fold_available server jobId database collection shard
      (l.getD 1 "") l ⟨0, false, available, sub, []⟩

lemma processShard_follower (server jobId database collection : String)
    (available : List String) (sub : Nat) (rands : List Nat)
    (shard : String) (l : List String)
    (hhead : l.head? ≠ some server) (hmem : server ∈ l) :
    (available.filter (fun x => !l.contains x) = [] →
      (processShard server jobId database collection false available sub rands
        shard l).1 = []) ∧
    (available.filter (fun x => !l.contains x) ≠ [] →
      ∃ toServer,
        (processShard server jobId database collection false available sub
          rands shard l).1 =
          [SubJob.failedFollower (jobId ++ "-" ++ toString sub) jobId database
            collection shard server toServer] ∧
        toServer ∈ available.filter (fun x => !l.contains x)) := by
  obtain ⟨d, t, rfl⟩ : ∃ d t, l = d :: t := by
    cases l with
    | nil => simp at hmem
    | cons d t => exact ⟨d, t, rfl⟩
  have hd : d ≠ server := by
    intro h
    exact hhead (by rw [h]; rfl)
  have hmt : server ∈ t := by
    rcases List.mem_cons.mp hmem with h | h
    · exact absurd h.symm hd
    · exact h
  set S := List.foldl (scanStep server jobId database collection shard
    ((d :: t).getD 1 "")) ⟨0, false, available, sub, []⟩ (d :: t) with hS
  have h1 := scanStep_of_ne server jobId database collection shard
    ((d :: t).getD 1 "") ⟨0, false, available, sub, []⟩ d hd
  have hpos1 : 0 < (scanStep server jobId database collection shard
      ((d :: t).getD 1 "") ⟨0, false, available, sub, []⟩ d).pos := by
    rw [scanStep_pos_of_ne server jobId database collection shard
      ((d :: t).getD 1 "") ⟨0, false, available, sub, []⟩ d hd]
    exact Nat.succ_pos _
  have h2 := scan_fold_of_pos server jobId database collection shard
    ((d :: t).getD 1 "") t _ hpos1
  have hjobs : S.jobs = [] := by
    rw [hS, List.foldl_cons, h2.1, h1.1]
  have hfound : S.found = true := by
    rw [hS, List.foldl_cons, h2.2.1, h1.2.1]
    simp [hmt]
  have hsub : S.sub = sub := by
    rw [hS, List.foldl_cons, h2.2.2.1, h1.2.2]
  have havail : S.available = available.filter (fun x => !(d :: t).contains x) := by
    rw [hS]
    exact scan_fold_available server jobId database collection shard
      ((d :: t).getD 1 "") (d :: t) ⟨0, false, available, sub, []⟩
  constructor
  · intro hpool
    unfold processShard
    dsimp only
    rw [← hS, if_neg]
    · exact hjobs
    · intro hc
      exact hc.2.1 (by rw [havail]; exact hpool)
  · intro hpool
    unfold processShard
    dsimp only
    rw [← hS, if_pos]
    · refine ⟨S.available.getD (rands.headD 0 % S.available.length) "", ?_, ?_⟩
      · rw [hjobs, hsub]
        simp
      · rw [havail]
        apply getD_mod_mem
        exact hpool
    · refine ⟨by rw [hfound], ?_, by simp⟩
      rw [havail]
      exact hpool

lemma processShard_leader (server jobId database collection : String)
    (isClone : Bool) (available : List String) (sub : Nat) (rands : List Nat)
    (shard : String) (t : List String)
    (hnotail : ∀ x ∈ t, x ≠ server) :
    (processShard server jobId database collection isClone available sub rands
      shard (server :: t)).1 =
      [SubJob.failedLeader (jobId ++ "-" ++ toString sub) jobId database
        collection shard server ((server :: t).getD 1 "")] := by
  have h1 := scanStep_leader server jobId database collection shard
    ((server :: t).getD 1 "") ⟨0, false, available, sub, []⟩ rfl
  have h2 := scan_fold_of_ne server jobId database collection shard
    ((server :: t).getD 1 "") t
    (scanStep server jobId database collection shard ((server :: t).getD 1 "")
      ⟨0, false, available, sub, []⟩ server) hnotail
  have hjobs : (List.foldl (scanStep server jobId database collection shard
      ((server :: t).getD 1 "")) ⟨0, false, available, sub, []⟩
      (server :: t)).jobs =
      [SubJob.failedLeader (jobId ++ "-" ++ toString sub) jobId database
        collection shard server ((server :: t).getD 1 "")] := by
    rw [List.foldl_cons, h2.1, h1.1]
    simp
  have hfound : (List.foldl (scanStep server jobId database collection shard
      ((server :: t).getD 1 "")) ⟨0, false, available, sub, []⟩
      (server :: t)).found = false := by
    rw [List.foldl_cons, h2.2.1, h1.2.1]
  unfold processShard
  dsimp only
  rw [if_neg]
  · exact hjobs
  · intro hc
    rw [hfound] at hc
    exact Bool.false_ne_true hc.1

lemma processShards_go (server jobId database collection : String)
    (isClone : Bool) :
    ∀ (shards : List (String × List String)) (J : List SubJob)
      (a : List String) (s : Nat) (r : List Nat),
      shards.foldl (shardStep server jobId database collection isClone)
        (J, a, s, r) =
      (J ++ (processShards server jobId database collection isClone shards
        a s r).1,
       (processShards server jobId database collection isClone shards
        a s r).2) := by
  intro shards
  induction shards with
  | nil => intro J a s r; simp [processShards]
  | cons sh t ih =>
    intro J a s r
    simp only [processShards, List.foldl_cons, shardStep]
    rw [ih, ih]
    simp [List.append_assoc]

lemma processShards_cons (server jobId database collection : String)
    (isClone : Bool) (sh : String × List String)
    (t : List (String × List String)) (a : List String) (s : Nat)
    (r : List Nat) :
    processShards server jobId database collection isClone (sh :: t) a s r =
      ((processShard server jobId database collection isClone a s r
          sh.1 sh.2).1 ++
        (processShards server jobId database collection isClone t
          (processShard server jobId database collection isClone a s r
            sh.1 sh.2).2.1
          (processShard server jobId database collection isClone a s r
            sh.1 sh.2).2.2.1
          (processShard server jobId database collection isClone a s r
            sh.1 sh.2).2.2.2).1,
       (processShards server jobId database collection isClone t
          (processShard server jobId database collection isClone a s r
            sh.1 sh.2).2.1
          (processShard server jobId database collection isClone a s r
            sh.1 sh.2).2.2.1
          (processShard server jobId database collection isClone a s r
            sh.1 sh.2).2.2.2).2) := by
  simp only [processShards, List.foldl_cons, shardStep]
  rw [processShards_go]
  simp [processShards]

lemma processShards_append (server jobId database collection : String)
    (isClone : Bool) (l1 l2 : List (String × List String)) (a : List String)
    (s : Nat) (r : List Nat) :
    processShards server jobId database collection isClone (l1 ++ l2) a s r =
      ((processShards server jobId database collection isClone l1 a s r).1 ++
        (processShards server jobId database collection isClone l2
          (processShards server jobId database collection isClone l1 a s r).2.1
          (processShards server jobId database collection isClone l1 a s
            r).2.2.1
          (processShards server jobId database collection isClone l1 a s
            r).2.2.2).1,
       (processShards server jobId database collection isClone l2
          (processShards server jobId database collection isClone l1 a s r).2.1
          (processShards server jobId database collection isClone l1 a s
            r).2.2.1
          (processShards server jobId database collection isClone l1 a s
            r).2.2.2).2) := by
  conv_lhs => rw [processShards, List.foldl_append]
  have he : List.foldl (shardStep server jobId database collection isClone)
      ([], a, s, r) l1 =
      ((processShards server jobId database collection isClone l1 a s r).1,
       (processShards server jobId database collection isClone l1 a s r).2.1,
       (processShards server jobId database collection isClone l1 a s r).2.2.1,
       (processShards server jobId database collection isClone l1 a s
         r).2.2.2) := rfl
  rw [he, processShards_go]

lemma processShards_available (server jobId database collection : String)
    (isClone : Bool) :
    ∀ (shards : List (String × List String)) (a : List String) (s : Nat)
      (r : List Nat),
      (processShards server jobId database collection isClone shards
        a s r).2.1 =
        a.filter (fun x => !((shards.map Prod.snd).flatten).contains x) := by
  intro shards
  induction shards with
  | nil => intro a s r; simp [processShards]
  | cons sh t ih =>
    intro a s r
    rw [processShards_cons]
    dsimp only
    rw [ih, processShard_available, List.filter_filter]
    apply List.filter_congr
    intro x _
    by_cases h1 : x ∈ sh.2 <;> by_cases h2 : x ∈ (t.map Prod.snd).flatten <;>
      simp [h1, h2]

lemma scanStep_jobs_cases (server jobId database collection shard second : String)
    (s : ScanSt) (dbs : String) :
    (scanStep server jobId database collection shard second s dbs).jobs =
      s.jobs ∨
    (scanStep server jobId database collection shard second s dbs).jobs =
      s.jobs ++ [SubJob.failedLeader (jobId ++ "-" ++ toString s.sub) jobId
        database collection shard server second] := by
  unfold scanStep
  dsimp only
  split
  · split
    · right; rfl
    · left; rfl
  · left; rfl

lemma scan_fold_jobs_pred (server jobId database collection shard second : String)
    (P : SubJob → Prop)
    (hleader : ∀ jid, P (SubJob.failedLeader jid jobId database collection
      shard server second)) :
    ∀ (l : List String) (s : ScanSt), (∀ j ∈ s.jobs, P j) →
      ∀ j ∈ (l.foldl (scanStep server jobId database collection shard second)
        s).jobs, P j := by
  intro l
  induction l with
  | nil => intro s h; exact h
  | cons d t ih =>
    intro s h
    rw [List.foldl_cons]
    apply ih
    rcases scanStep_jobs_cases server jobId database collection shard second
      s d with hc | hc
    · rw [hc]; exact h
    · rw [hc]
      intro j hj
      rcases List.mem_append.mp hj with hj | hj
      · exact h j hj
      · rw [List.mem_singleton.mp hj]
        exact hleader _

lemma processShard_jobs_pred (server jobId database collection : String)
    (isClone : Bool) (available : List String) (sub : Nat) (rands : List Nat)
    (shard : String) (l : List String) (P : SubJob → Prop)
    (hleader : ∀ jid second, P (SubJob.failedLeader jid jobId database
      collection shard server second))
    (hfollower : ∀ jid toServer, P (SubJob.failedFollower jid jobId database
      collection shard server toServer)) :
    ∀ j ∈ (processShard server jobId database collection isClone available
      sub rands shard l).1, P j := by
  unfold processShard
  dsimp only
  split
  · intro j hj
    rcases List.mem_append.mp hj with hj | hj
    · exact scan_fold_jobs_pred server jobId database collection shard
        (l.getD 1 "") P (fun jid => hleader jid _) l
        ⟨0, false, available, sub, []⟩ (by simp) j hj
    · rw [List.mem_singleton.mp hj]
      exact hfollower _ _
  · intro j hj
    exact scan_fold_jobs_pred server jobId database collection shard
      (l.getD 1 "") P (fun jid => hleader jid _) l
      ⟨0, false, available, sub, []⟩ (by simp) j hj

lemma processShard_clone_jobs (server jobId database collection : String)
    (available : List String) (sub : Nat) (rands : List Nat)
    (shard : String) (l : List String) :
    ∀ j ∈ (processShard server jobId database collection true available sub
      rands shard l).1, j.isFollower = false := by
  unfold processShard
  dsimp only
  split
  · next h => exact absurd rfl h.2.2
  · intro j hj
    exact scan_fold_jobs_pred server jobId database collection shard
      (l.getD 1 "") (fun j => j.isFollower = false) (fun jid => rfl) l
      ⟨0, false, available, sub, []⟩ (by simp) j hj

lemma processShards_shardOf (server jobId database collection : String)
    (isClone : Bool) :
    ∀ (shards : List (String × List String)) (a : List String) (s : Nat)
      (r : List Nat),
      ∀ j ∈ (processShards server jobId database collection isClone shards
        a s r).1, j.shardOf ∈ shards.map Prod.fst := by
  intro shards
  induction shards with
  | nil => intro a s r j hj; simp [processShards] at hj
  | cons sh t ih =>
    intro a s r j hj
    rw [processShards_cons] at hj
    rcases List.mem_append.mp hj with hj | hj
    · have hsh := processShard_jobs_pred server jobId database collection
        isClone a s r sh.1 sh.2 (fun j => j.shardOf = sh.1)
        (fun _ _ => rfl) (fun _ _ => rfl) j hj
      rw [List.map_cons, hsh]
      exact List.mem_cons_self _ _
    · have := ih _ _ _ j hj
      rw [List.map_cons]
      exact List.mem_cons_of_mem _ this

lemma processShards_clone_no_follower (server jobId database collection : String) :
    ∀ (shards : List (String × List String)) (a : List String) (s : Nat)
      (r : List Nat),
      ∀ j ∈ (processShards server jobId database collection true shards
        a s r).1, j.isFollower = false := by
  intro shards
  induction shards with
  | nil => intro a s r j hj; simp [processShards] at hj
  | cons sh t ih =>
    intro a s r j hj
    rw [processShards_cons] at hj
    rcases List.mem_append.mp hj with hj | hj
    · exact processShard_clone_jobs server jobId database collection
        a s r sh.1 sh.2 j hj
    · exact ih _ _ _ j hj

lemma unassumed_fold_pred (server jobId database collection : String)
    (P : SubJob → Prop)
    (hP : ∀ jid shname, P (SubJob.unassumedLeadership jid jobId database
      collection shname server)) :
    ∀ (shards : List (String × List String)) (acc : List SubJob × Nat),
      (∀ j ∈ acc.1, P j) →
      ∀ j ∈ (shards.foldl (unassumedStep server jobId database collection)
        acc).1, P j := by
  intro shards
  induction shards with
  | nil => intro acc h; exact h
  | cons sh t ih =>
    intro acc h
    rw [List.foldl_cons]
    apply ih
    intro j hj
    rcases List.mem_append.mp hj with hj | hj
    · exact h j hj
    · rw [List.mem_singleton.mp hj]
      exact hP _ _

lemma shard_notin_sides (pre post : List (String × List String))
    (shard : String) (l : List String)
    (hnodup : ((pre ++ (shard, l) :: post).map Prod.fst).Nodup) :
    shard ∉ pre.map Prod.fst ∧ shard ∉ post.map Prod.fst := by
  rw [List.map_append, List.map_cons, List.nodup_append] at hnodup
  obtain ⟨h1, h2, hdisj⟩ := hnodup
  refine ⟨fun hmem => (hdisj hmem) (List.mem_cons_self _ _), ?_⟩
  exact (List.nodup_cons.mp h2).1

lemma filter_shard_middle (shard : String) (Jpre Jmid Jpost : List SubJob)
    (hpre : ∀ j ∈ Jpre, j.shardOf ≠ shard)
    (hmid : ∀ j ∈ Jmid, j.shardOf = shard)
    (hpost : ∀ j ∈ Jpost, j.shardOf ≠ shard) :
    (Jpre ++ (Jmid ++ Jpost)).filter (fun j => j.shardOf = shard) = Jmid := by
  rw [List.filter_append, List.filter_append,
    List.filter_eq_nil_iff.mpr (fun j hj => by simpa using hpre j hj),
    List.filter_eq_self.mpr (fun j hj => by simpa using hmid j hj),
    List.filter_eq_nil_iff.mpr (fun j hj => by simpa using hpost j hj)]
  simp

lemma filter_filter_contains (a l1 l2 : List String) :
    (a.filter (fun x => !l1.contains x)).filter (fun x => !l2.contains x) =
      a.filter (fun x => !((l1 ++ l2).contains x)) := by
  rw [List.filter_filter]
  apply List.filter_congr
  intro x _
  by_cases h1 : x ∈ l1 <;> by_cases h2 : x ∈ l2 <;> simp [h1, h2]

lemma processCollection_shards (server jobId : String)
    (available0 : List String) (database collection : String) (c : Collection)
    (sub : Nat) (rands : List Nat)
    (hcur : c.currentNonEmpty = true) (hrf : 1 < c.replicationFactor) :
    (processCollection server jobId available0 database collection c sub
      rands).1 =
      (processShards server jobId database collection c.isClone c.shards
        available0 sub rands).1 := by
  unfold processCollection
  rw [if_pos hcur, if_pos hrf]

/-! ## C7: leader-case decomposition completeness -/

/-- C7: for a shard of a collection with replication factor above 1 (its
Current entry populated) whose server list has the failed server at position
0 and nowhere else, the decomposition spawns exactly one sub-job for that
shard: a FailedLeader designating the list's second entry as the new leader
(and in particular zero FailedFollower sub-jobs for it). -/
theorem leader_decomposition
    (server jobId database collection : String) (c : Collection)
    (available0 : List String) (sub : Nat) (rands : List Nat)
    (pre post : List (String × List String)) (shard : String) (l : List String)
    (hsh : c.shards = pre ++ (shard, l) :: post)
    (hnodup : (c.shards.map Prod.fst).Nodup)
    (hcur : c.currentNonEmpty = true)
    (hrf : 1 < c.replicationFactor)
    (hhead : l.head? = some server)
    (hnotail : ∀ x ∈ l.tail, x ≠ server) :
    ∃ jid,
      ((processCollection server jobId available0 database collection c sub
        rands).1.filter (fun j => j.shardOf = shard)) =
        [SubJob.failedLeader jid jobId database collection shard server
          (l.getD 1 "")] := by
  obtain ⟨t, rfl⟩ : ∃ t, l = server :: t := by
    cases l with
    | nil => simp at hhead
    | cons d t => exact ⟨t, by rw [Option.some_inj.mp hhead.symm]⟩
  rw [hsh] at hnodup
  have hsides := shard_notin_sides pre post shard (server :: t) hnodup
  rw [processCollection_shards server jobId available0 database collection c
    sub rands hcur hrf, hsh, processShards_append, processShards_cons]
  dsimp only
  refine ⟨jobId ++ "-" ++ toString (processShards server jobId database
    collection c.isClone pre available0 sub rands).2.2.1, ?_⟩
  rw [processShard_leader server jobId database collection c.isClone _ _ _
    shard t (fun x hx => hnotail x hx)]
  apply filter_shard_middle
  · intro j hj
    intro hc
    apply hsides.1
    rw [← hc]
    exact processShards_shardOf server jobId database collection c.isClone
      pre _ _ _ j hj
  · intro j hj
    rw [List.mem_singleton.mp hj]
    rfl
  · intro j hj
    intro hc
    apply hsides.2
    rw [← hc]
    exact processShards_shardOf server jobId database collection c.isClone
      post _ _ _ j hj

/-- Witness for C7: collection with one shard [A, B, C], failed server A. -/
theorem leader_decomposition_witness :
    ∃ jid,
      ((processCollection "A" "1" ["A", "B", "C", "D"] "db" "coll"
        ⟨3, none, [("s1", ["A", "B", "C"])], true⟩ 0 [0]).1.filter
          (fun j => j.shardOf = "s1")) =
        [SubJob.failedLeader jid "1" "db" "coll" "s1" "A"
          (["A", "B", "C"].getD 1 "")] :=
  leader_decomposition "A" "1" "db" "coll"
    ⟨3, none, [("s1", ["A", "B", "C"])], true⟩ ["A", "B", "C", "D"] 0 [0]
    [] [] "s1" ["A", "B", "C"] rfl (by decide) rfl (by decide) rfl
    (by decide)

/-! ## C8: clone collections never spawn FailedFollower sub-jobs -/

/-- C8: a collection whose distributeShardsLike marker is present and
non-empty (a clone) never contributes a FailedFollower sub-job to the
decomposition, whatever the candidate pool, counters or random stream
(health state never enters the per-collection decomposition). -/
theorem clone_exclusion
    (server jobId database collection : String) (c : Collection)
    (available0 : List String) (sub : Nat) (rands : List Nat)
    (hclone : c.isClone = true) :
    ∀ j ∈ (processCollection server jobId available0 database collection c
      sub rands).1, j.isFollower = false := by
  intro j hj
  unfold processCollection at hj
  by_cases hcur : c.currentNonEmpty = true
  · rw [if_pos hcur] at hj
    by_cases hrf : 1 < c.replicationFactor
    · rw [if_pos hrf] at hj
      dsimp only at hj
      rw [hclone] at hj
      exact processShards_clone_no_follower server jobId database collection
        c.shards available0 sub rands j hj
    · rw [if_neg hrf] at hj
      simp at hj
  · rw [if_neg hcur] at hj
    dsimp only at hj
    exact unassumed_fold_pred server jobId database collection
      (fun j => j.isFollower = false) (fun _ _ => rfl) c.shards ([], sub)
      (by simp) j hj

/-- Witness for C8: a clone collection producing a (non-follower) sub-job. -/
theorem clone_exclusion_witness :
    (SubJob.unassumedLeadership "1-0" "1" "db" "coll" "s1" "B").isFollower =
      false :=
  clone_exclusion "B" "1" "db" "coll"
    ⟨2, some "other", [("s1", ["A", "B"])], false⟩ ["A", "B", "D"] 0 [0]
    rfl (SubJob.unassumedLeadership "1-0" "1" "db" "coll" "s1" "B")
    (by decide)

/-! ## C4: follower-case decomposition and the candidate pool -/

/-- C4 (amended): for a shard of a non-clone collection (replication factor
above 1, Current entry populated) in which the failed server occupies a
non-zero position, the decomposition spawns exactly one FailedFollower
sub-job if and only if the candidate pool is non-empty, where the pool is
the available-server list minus every server appearing in the shard's own
assignment or in any earlier shard of the same collection during this pass;
the replacement is drawn from that pool, and an empty pool yields zero
sub-jobs for the shard with no error.  (Unlike the original claim, servers
chosen as replacements are not excluded from the pool for later shards: see
the counterexample.) -/
theorem follower_decomposition
    (server jobId database collection : String) (c : Collection)
    (available0 : List String) (sub : Nat) (rands : List Nat)
    (pre post : List (String × List String)) (shard : String) (l : List String)
    (hsh : c.shards = pre ++ (shard, l) :: post)
    (hnodup : (c.shards.map Prod.fst).Nodup)
    (hcur : c.currentNonEmpty = true)
    (hrf : 1 < c.replicationFactor)
    (hclone : c.isClone = false)
    (hhead : l.head? ≠ some server)
    (hmem : server ∈ l) :
    (available0.filter
        (fun x => !(((pre.map Prod.snd).flatten ++ l).contains x)) = [] →
      ((processCollection server jobId available0 database collection c sub
        rands).1.filter (fun j => j.shardOf = shard)) = []) ∧
    (available0.filter
        (fun x => !(((pre.map Prod.snd).flatten ++ l).contains x)) ≠ [] →
      ∃ jid toServer,
        ((processCollection server jobId available0 database collection c sub
          rands).1.filter (fun j => j.shardOf = shard)) =
          [SubJob.failedFollower jid jobId database collection shard server
            toServer] ∧
        toServer ∈ available0.filter
          (fun x => !(((pre.map Prod.snd).flatten ++ l).contains x))) := by
  rw [hsh] at hnodup
  have hsides := shard_notin_sides pre post shard l hnodup
  have hfol := processShard_follower server jobId database collection
    (processShards server jobId database collection false pre available0 sub
      rands).2.1
    (processShards server jobId database collection false pre available0 sub
      rands).2.2.1
    (processShards server jobId database collection false pre available0 sub
      rands).2.2.2
    shard l hhead hmem
  have ha1 := processShards_available server jobId database collection false
    pre available0 sub rands
  have hpool : (processShards server jobId database collection false pre
      available0 sub rands).2.1.filter (fun x => !l.contains x) =
      available0.filter
        (fun x => !(((pre.map Prod.snd).flatten ++ l).contains x)) := by
    rw [ha1, filter_filter_contains]
  have hpre : ∀ j ∈ (processShards server jobId database collection false pre
      available0 sub rands).1, j.shardOf ≠ shard := by
    intro j hj hc
    apply hsides.1
    rw [← hc]
    exact processShards_shardOf server jobId database collection false
      pre _ _ _ j hj
  have hpost : ∀ j ∈ (processShards server jobId database collection false
      post
      (processShard server jobId database collection false
        (processShards server jobId database collection false pre available0
          sub rands).2.1
        (processShards server jobId database collection false pre available0
          sub rands).2.2.1
        (processShards server jobId database collection false pre available0
          sub rands).2.2.2 shard l).2.1
      (processShard server jobId database collection false
        (processShards server jobId database collection false pre available0
          sub rands).2.1
        (processShards server jobId database collection false pre available0
          sub rands).2.2.1
        (processShards server jobId database collection false pre available0
          sub rands).2.2.2 shard l).2.2.1
      (processShard server jobId database collection false
        (processShards server jobId database collection false pre available0
          sub rands).2.1
        (processShards server jobId database collection false pre available0
          sub rands).2.2.1
        (processShards server jobId database collection false pre available0
          sub rands).2.2.2 shard l).2.2.2).1, j.shardOf ≠ shard := by
    intro j hj hc
    apply hsides.2
    rw [← hc]
    exact processShards_shardOf server jobId database collection false
      post _ _ _ j hj
  rw [processCollection_shards server jobId available0 database collection c
    sub rands hcur hrf, hclone, hsh, processShards_append, processShards_cons]
  dsimp only
  constructor
  · intro hp
    rw [hfol.1 (by rw [hpool]; exact hp)]
    exact filter_shard_middle shard _ [] _ hpre (by intro j hj; simp at hj)
      hpost
  · intro hp
    obtain ⟨toServer, heq, hmemT⟩ := hfol.2 (by rw [hpool]; exact hp)
    refine ⟨jobId ++ "-" ++ toString (processShards server jobId database
      collection false pre available0 sub rands).2.2.1, toServer, ?_, ?_⟩
    · rw [heq]
      exact filter_shard_middle shard _ _ _ hpre
        (by intro j hj; rw [List.mem_singleton.mp hj]; rfl) hpost
    · rw [← hpool]
      exact hmemT

/-- Witness for C4 (amended): shard [A, B] with failed follower B and an
outside server D available. -/
theorem follower_decomposition_witness :
    ∃ jid toServer,
      ((processCollection "B" "1" ["A", "B", "D"] "db" "coll"
        ⟨2, none, [("s1", ["A", "B"])], true⟩ 0 [0]).1.filter
          (fun j => j.shardOf = "s1")) =
        [SubJob.failedFollower jid "1" "db" "coll" "s1" "B" toServer] ∧
      toServer ∈ (["A", "B", "D"] : List String).filter
        (fun x =>
          !(((([] : List (String × List String)).map Prod.snd).flatten ++
            ["A", "B"]).contains x)) :=
  (follower_decomposition "B" "1" "db" "coll"
    ⟨2, none, [("s1", ["A", "B"])], true⟩ ["A", "B", "D"] 0 [0]
    [] [] "s1" ["A", "B"] rfl (by decide) rfl (by decide) rfl (by decide)
    (by decide)).2 (by decide)

/-- C4 counterexample: with two shards s1 and s2 both assigned [A, B], failed
follower B and a single outside server D, the code picks D as the
replacement for s1 and then picks D again for s2 - the server chosen as
replacement for an earlier shard is still in the candidate pool of the later
shard.  Under the claim as stated, D would have been excluded after s1 and
s2 would have produced zero sub-jobs. -/
theorem follower_replacement_reuse_counterexample :
    (processCollection "B" "1" ["A", "B", "D"] "db" "coll"
      ⟨2, none, [("s1", ["A", "B"]), ("s2", ["A", "B"])], true⟩ 0 [0, 0]).1 =
      [SubJob.failedFollower "1-0" "1" "db" "coll" "s1" "B" "D",
       SubJob.failedFollower "1-1" "1" "db" "coll" "s2" "B" "D"] := by
  decide

/-! ## C9: run() on a Finished or Failed job writes nothing -/

/-- C9: invoking run() on a job whose record lies in the Failed or Finished
namespace (with a readable server field) issues no transaction and leaves
the store unchanged; a second immediate run() does exactly the same, so the
two runs together produce no store writes - status() has no reconciliation
to perform in these states. -/
theorem run_terminal_idempotent
    (e : Env) (st : Store) (srv : String)
    (hloc : existsLoc e = .FAILED ∨ existsLoc e = .FINISHED)
    (hsrv : e.recordServer = some srv) :
    runFS e st = (st, []) ∧ runFS e ((runFS e st).1) = (st, []) := by
  have hst : statusFS e st = (.ok (existsLoc e), srv, st, []) := by
    rcases hloc with h | h <;> simp [statusFS, h, hsrv]
  have hb : runBody e st = (.ok (), st, []) := by
    rcases hloc with h | h <;> simp [runBody, hst, h]
  have hr : runFS e st = (st, []) := by
    simp [runFS, hb]
  refine ⟨hr, ?_⟩
  rw [hr]
  exact hr

/-- Witness for C9 at a concrete Finished job. -/
theorem run_terminal_idempotent_witness :
    runFS
      { jobId := "1", creator := "0", agencyPfx := "/arango", server := "S",
        inTodo := false, inPending := false, inFailed := false,
        inFinished := true, recordServer := some "S", health := some "GOOD",
        todos := [], pends := [], todoFields := none, fsSnap := none,
        plan := [], available := [], rands := [], timeNow := "T" }
      [("k", .str "v")] = ([("k", .str "v")], []) :=
  (run_terminal_idempotent
    { jobId := "1", creator := "0", agencyPfx := "/arango", server := "S",
      inTodo := false, inPending := false, inFailed := false,
      inFinished := true, recordServer := some "S", health := some "GOOD",
      todos := [], pends := [], todoFields := none, fsSnap := none,
      plan := [], available := [], rands := [], timeNow := "T" }
    [("k", .str "v")] "S" (Or.inr rfl) rfl).1

/-! ## C5: exception containment in run() -/

/-- C5: whenever the status/create/start sequence inside run() raises an
exception with message m, run() converts it into a terminal finish
transaction with success = false carrying m, appended after the
transactions the body had already issued; run() itself is a total function
(its type carries no exception), so it never propagates one to the
driver. -/
theorem run_exception_containment
    (e : Env) (st : Store) (m : String)
    (herr : (runBody e st).1 = .error m) :
    runFS e st =
      ((transact (runBody e st).2.1
        (finishTx e.agencyPfx e.jobId (existsLoc e) e.server false m)).2,
       (runBody e st).2.2 ++
         [finishTx e.agencyPfx e.jobId (existsLoc e) e.server false m]) := by
  have hrb : runBody e st =
      (.error m, (runBody e st).2.1, (runBody e st).2.2) := by
    rw [← herr]
  unfold runFS
  rw [hrb]

/-- Witness for C5: a Pending job whose health record is missing from the
snapshot makes status() throw; run() converts it into the failure finish. -/
theorem run_exception_containment_witness :
    runFS
      { jobId := "1", creator := "0", agencyPfx := "/arango", server := "S",
        inTodo := false, inPending := true, inFailed := false,
        inFinished := false, recordServer := some "S", health := none,
        todos := [], pends := [], todoFields := none, fsSnap := none,
        plan := [], available := [], rands := [], timeNow := "T" }
      [] =
      ((transact
          (runBody
            { jobId := "1", creator := "0", agencyPfx := "/arango",
              server := "S", inTodo := false, inPending := true,
              inFailed := false, inFinished := false,
              recordServer := some "S", health := none, todos := [],
              pends := [], todoFields := none, fsSnap := none, plan := [],
              available := [], rands := [], timeNow := "T" } []).2.1
          (finishTx "/arango" "1" .PENDING "S" false
            "missing health record for S")).2,
       (runBody
          { jobId := "1", creator := "0", agencyPfx := "/arango",
            server := "S", inTodo := false, inPending := true,
            inFailed := false, inFinished := false, recordServer := some "S",
            health := none, todos := [], pends := [], todoFields := none,
            fsSnap := none, plan := [], available := [], rands := [],
            timeNow := "T" } []).2.2 ++
         [finishTx "/arango" "1" .PENDING "S" false
           "missing health record for S"]) :=
  run_exception_containment
    { jobId := "1", creator := "0", agencyPfx := "/arango", server := "S",
      inTodo := false, inPending := true, inFailed := false,
      inFinished := false, recordServer := some "S", health := none,
      todos := [], pends := [], todoFields := none, fsSnap := none,
      plan := [], available := [], rands := [], timeNow := "T" }
    [] "missing health record for S" rfl

/-! ## C2: status() reconciliation of a Pending job on a recovered server -/

lemma storeGet_del_fold (keys : List String) (st : Store) (k : String) :
    storeGet ((keys.map AgencyOp.del).foldl applyOp st) k =
      if k ∈ keys then none else storeGet st k := by
  induction keys generalizing st with
  | nil => simp
  | cons a t ih =>
    simp only [List.map_cons, List.foldl_cons, applyOp]
    rw [ih]
    by_cases hk : k ∈ t
    · simp [hk]
    · by_cases hka : k = a
      · simp [hk, hka, storeGet_storeDel]
      · simp [hk, hka, storeGet_storeDel]

lemma deleteTodosTx_ops (e : Env) :
    (deleteTodosTx e).ops =
      ((e.todos.filter (isSubJobName e.jobId)).map
        (fun n => e.agencyPfx ++ toDoPfx ++ n)).map AgencyOp.del := by
  unfold deleteTodosTx
  rw [List.map_map]
  rfl

lemma transact_no_preconds (st : Store) (t : Transaction)
    (h : t.preconds = []) :
    transact st t = (true, t.ops.foldl applyOp st) := by
  simp [transact, h]

lemma storeGet_finish_apply (a jobId srv : String) (loc : JOB_STATUS)
    (success : Bool) (msg : String) (st : Store) (k : String)
    (hpk : k ≠ a ++ posPfx loc ++ jobId)
    (hbk : k ≠ a ++ blockedServersPfx ++ srv)
    (hfk : k ≠ a ++ (if success then finishedPfx else failedPfx) ++ jobId) :
    storeGet ((finishTx a jobId loc srv success msg).ops.foldl applyOp st) k =
      storeGet st k := by
  simp only [finishTx, List.foldl_cons, List.foldl_nil, applyOp]
  rw [storeGet_storeSet, if_neg hfk, storeGet_storeDel, if_neg hbk,
    storeGet_storeDel, if_neg hpk]

lemma storeGet_finish_apply_none (a jobId srv : String) (loc : JOB_STATUS)
    (success : Bool) (msg : String) (st : Store) (k : String)
    (hfk : k ≠ a ++ (if success then finishedPfx else failedPfx) ++ jobId)
    (h : storeGet st k = none) :
    storeGet ((finishTx a jobId loc srv success msg).ops.foldl applyOp st) k =
      none := by
  simp only [finishTx, List.foldl_cons, List.foldl_nil, applyOp]
  rw [storeGet_storeSet, if_neg hfk, storeGet_storeDel, storeGet_storeDel]
  split
  · rfl
  · split
    · rfl
    · exact h

/-- C2: for a Pending FailedServer whose target server reads healthy again,
one status() call issues (when at least one such sub-job exists) a single
no-precondition transaction whose operations are exactly one delete per ToDo
child named (jobId)-..., touches no other key apart from the parent's own
finish move (Pending sub-jobs in particular stay untouched), and returns
FINISHED exactly when no Pending child with that prefix remains (after the
deletion no ToDo child with the prefix remains either); with a remaining
Pending child it returns PENDING and performs no finish. -/
theorem statusPending_recovery_cancellation
    (e : Env) (st : Store) (srv : String)
    (hloc : existsLoc e = .PENDING)
    (hsrv : e.recordServer = some srv)
    (hh : e.health = some HEALTH_GOOD) :
    statusFS e st =
      (.ok (if e.pends.any (isSubJobName e.jobId) then JOB_STATUS.PENDING
            else JOB_STATUS.FINISHED),
       srv,
       ((if (e.todos.filter (isSubJobName e.jobId)).isEmpty then []
         else [deleteTodosTx e]) ++
        (if e.pends.any (isSubJobName e.jobId) then []
         else [finishTx e.agencyPfx e.jobId .PENDING srv true ""])).foldl
         (fun s t => (transact s t).2) st,
       (if (e.todos.filter (isSubJobName e.jobId)).isEmpty then []
        else [deleteTodosTx e]) ++
       (if e.pends.any (isSubJobName e.jobId) then []
        else [finishTx e.agencyPfx e.jobId .PENDING srv true ""])) ∧
    (∀ n ∈ e.todos, isSubJobName e.jobId n = true →
      storeGet (statusFS e st).2.2.1 (e.agencyPfx ++ toDoPfx ++ n) = none) ∧
    (∀ k, (∀ n ∈ e.todos, isSubJobName e.jobId n = true →
        k ≠ e.agencyPfx ++ toDoPfx ++ n) →
      k ≠ e.agencyPfx ++ pendingPfx ++ e.jobId →
      k ≠ e.agencyPfx ++ blockedServersPfx ++ srv →
      k ≠ e.agencyPfx ++ finishedPfx ++ e.jobId →
      storeGet (statusFS e st).2.2.1 k = storeGet st k) := by
  have hmain : statusFS e st =
      (.ok (if e.pends.any (isSubJobName e.jobId) then JOB_STATUS.PENDING
            else JOB_STATUS.FINISHED),
       srv,
       ((if (e.todos.filter (isSubJobName e.jobId)).isEmpty then []
         else [deleteTodosTx e]) ++
        (if e.pends.any (isSubJobName e.jobId) then []
         else [finishTx e.agencyPfx e.jobId .PENDING srv true ""])).foldl
         (fun s t => (transact s t).2) st,
       (if (e.todos.filter (isSubJobName e.jobId)).isEmpty then []
        else [deleteTodosTx e]) ++
       (if e.pends.any (isSubJobName e.jobId) then []
        else [finishTx e.agencyPfx e.jobId .PENDING srv true ""])) := by
    by_cases hT : (e.todos.filter (isSubJobName e.jobId)).isEmpty <;>
      by_cases hP : e.pends.any (isSubJobName e.jobId) <;>
        simp [statusFS, hloc, hsrv, hh, hT, hP, transact, deleteTodosTx,
          finishTx, HEALTH_GOOD]
  refine ⟨hmain, ?_, ?_⟩
  · intro n hn hpn
    have hT : (e.todos.filter (isSubJobName e.jobId)).isEmpty = false := by
      rw [List.isEmpty_eq_false_iff_exists_mem]
      exact ⟨n, List.mem_filter.mpr ⟨hn, hpn⟩⟩
    have hkey : (e.agencyPfx ++ toDoPfx ++ n) ∈
        (e.todos.filter (isSubJobName e.jobId)).map
          (fun n => e.agencyPfx ++ toDoPfx ++ n) :=
      List.mem_map.mpr ⟨n, List.mem_filter.mpr ⟨hn, hpn⟩, rfl⟩
    rw [hmain]
    dsimp only
    rw [hT]
    by_cases hP : e.pends.any (isSubJobName e.jobId)
    · rw [if_pos hP]
      simp only [Bool.false_eq_true, if_false, List.append_nil,
        List.foldl_cons, List.foldl_nil]
      rw [transact_no_preconds st (deleteTodosTx e) rfl]
      dsimp only
      rw [deleteTodosTx_ops, storeGet_del_fold, if_pos hkey]
    · rw [if_neg hP]
      simp only [Bool.false_eq_true, if_false, List.cons_append,
        List.nil_append, List.foldl_cons, List.foldl_nil]
      rw [transact_no_preconds st (deleteTodosTx e) rfl]
      dsimp only
      rw [transact_no_preconds _ _ rfl]
      dsimp only
      apply storeGet_finish_apply_none
      · intro hc
        exact append_ne_of_mid e.agencyPfx toDoPfx finishedPfx n e.jobId 8
          (by decide) (by decide) (by decide) (by simpa using hc)
      · rw [deleteTodosTx_ops, storeGet_del_fold, if_pos hkey]
  · intro k hknotodo hkp hkb hkf
    have hknokeys : k ∉ (e.todos.filter (isSubJobName e.jobId)).map
        (fun n => e.agencyPfx ++ toDoPfx ++ n) := by
      intro hc
      obtain ⟨n, hn, hkn⟩ := List.mem_map.mp hc
      obtain ⟨hn1, hn2⟩ := List.mem_filter.mp hn
      exact hknotodo n hn1 hn2 hkn.symm
    rw [hmain]
    dsimp only
    by_cases hT : (e.todos.filter (isSubJobName e.jobId)).isEmpty = true
    · rw [if_pos hT]
      by_cases hP : e.pends.any (isSubJobName e.jobId) = true
      · rw [if_pos hP]
        rfl
      · rw [if_neg hP]
        simp only [List.nil_append, List.foldl_cons, List.foldl_nil]
        rw [transact_no_preconds st _ rfl]
        dsimp only
        exact storeGet_finish_apply e.agencyPfx e.jobId srv .PENDING true ""
          st k hkp hkb (by simpa using hkf)
    · rw [if_neg hT]
      by_cases hP : e.pends.any (isSubJobName e.jobId) = true
      · rw [if_pos hP]
        simp only [List.append_nil, List.foldl_cons, List.foldl_nil]
        rw [transact_no_preconds st (deleteTodosTx e) rfl]
        dsimp only
        rw [deleteTodosTx_ops, storeGet_del_fold, if_neg hknokeys]
      · rw [if_neg hP]
        simp only [List.cons_append, List.nil_append, List.foldl_cons,
          List.foldl_nil]
        rw [transact_no_preconds st (deleteTodosTx e) rfl]
        dsimp only
        rw [transact_no_preconds _ _ rfl]
        dsimp only
        rw [storeGet_finish_apply e.agencyPfx e.jobId srv .PENDING true "" _
          k hkp hkb (by simpa using hkf)]
        rw [deleteTodosTx_ops, storeGet_del_fold, if_neg hknokeys]

/-- Witness for C2: Pending parent 1 with healthy server, ToDo children 1-0
and 1-1 (plus an unrelated ToDo 2-0), and Pending child 1-2: the call stays
PENDING and issues exactly the delete-ToDos transaction. -/
theorem statusPending_recovery_cancellation_witness :
    (statusFS
      { jobId := "1", creator := "0", agencyPfx := "/arango", server := "S",
        inTodo := false, inPending := true, inFailed := false,
        inFinished := false, recordServer := some "S",
        health := some "GOOD", todos := ["1-0", "1-1", "2-0"],
        pends := ["1-2"], todoFields := none, fsSnap := none, plan := [],
        available := [], rands := [], timeNow := "T" } []).1 =
      .ok JOB_STATUS.PENDING ∧
    (statusFS
      { jobId := "1", creator := "0", agencyPfx := "/arango", server := "S",
        inTodo := false, inPending := true, inFailed := false,
        inFinished := false, recordServer := some "S",
        health := some "GOOD", todos := ["1-0", "1-1", "2-0"],
        pends := ["1-2"], todoFields := none, fsSnap := none, plan := [],
        available := [], rands := [], timeNow := "T" } []).2.2.2 =
      [deleteTodosTx
        { jobId := "1", creator := "0", agencyPfx := "/arango", server := "S",
          inTodo := false, inPending := true, inFailed := false,
          inFinished := false, recordServer := some "S",
          health := some "GOOD", todos := ["1-0", "1-1", "2-0"],
          pends := ["1-2"], todoFields := none, fsSnap := none, plan := [],
          available := [], rands := [], timeNow := "T" }] := by
  have h := statusPending_recovery_cancellation
    { jobId := "1", creator := "0", agencyPfx := "/arango", server := "S",
      inTodo := false, inPending := true, inFailed := false,
      inFinished := false, recordServer := some "S", health := some "GOOD",
      todos := ["1-0", "1-1", "2-0"], pends := ["1-2"], todoFields := none,
      fsSnap := none, plan := [], available := [], rands := [],
      timeNow := "T" } [] "S" rfl rfl rfl
  rw [h.1]
  exact ⟨rfl, rfl⟩

end AgencySup
